import Mathlib

/-!
Verification development for `scripts/build_cfm_weekly.py`.

The script fetches one weekly manual page, extracts two headings and an
image URL from the parsed HTML, and writes a JSON record.  Everything the
script computes after the HTTP fetch is pure string and tree processing,
which is embedded below: Python strings become `String` (with parsing done
on `List Char` so that every definition reduces in the kernel), the
BeautifulSoup document becomes an explicit HTML tree, Python `list.sort`
becomes a stable insertion sort, `urllib.parse.urljoin` is modelled for the
fixed base of the script, and the `datetime.date.isocalendar` computation
is embedded following the CPython implementation.
-/

/-! ### Python string helpers -/

/-- Membership of a character in the Python `str.strip` / regex `\s`
whitespace class (ASCII part; the pages involved contain no exotic
unicode spaces). -/
def pyIsSpace (c : Char) : Bool :=
  c = ' ' || c = '\t' || c = '\n' || c = '\r' || c = '\x0b' || c = '\x0c'

/-- ASCII decimal digit, the characters matched by the regex class `\d`. -/
def pyIsDigit (c : Char) : Bool :=
  48 ≤ c.toNat && c.toNat ≤ 57

/-- ASCII letter, as accepted by CPython at the start of a URL scheme. -/
def isAsciiAlpha (c : Char) : Bool :=
  (65 ≤ c.toNat && c.toNat ≤ 90) || (97 ≤ c.toNat && c.toNat ≤ 122)

/-- Python `part.strip()` on a character list: drop whitespace from both
ends. -/
def pyStrip (l : List Char) : List Char :=
  ((l.dropWhile pyIsSpace).reverse.dropWhile pyIsSpace).reverse

/-- Python `s.split(",")`: split at every comma, keeping empty pieces, so
that the empty string yields one empty piece. -/
def splitOnComma : List Char → List (List Char)
  | [] => [[]]
  | c :: cs =>
      if c = ',' then [] :: splitOnComma cs
      else
        match splitOnComma cs with
        | [] => [[c]]
        | h :: t => (c :: h) :: t

/-- Value of a digit list in base 10, the meaning of Python `int` on a
string of digits. -/
def natOfDigits (l : List Char) : Nat :=
  l.foldl (fun n c => 10 * n + (c.toNat - 48)) 0

/-- Lexicographic strict comparison of character lists by code point, the
order Python uses to compare `str` values. -/
def charListLt : List Char → List Char → Bool
  | [], [] => false
  | [], _ :: _ => true
  | _ :: _, [] => false
  | a :: as, b :: bs => if a < b then true else if b < a then false else charListLt as bs

/-- Python `a < b` on strings. -/
def strLt (a b : String) : Prop := charListLt a.data b.data = true

/-- Python `a <= b` on strings. -/
def strLe (a b : String) : Prop := strLt a b ∨ a = b

instance : DecidableRel strLt := fun a b => instDecidableEqBool (charListLt a.data b.data) true

instance : DecidableRel strLe := fun _ _ => instDecidableOr

/-! ### URL resolution

The script computes `urljoin(BASE, u)` with the fixed base
`https://www.churchofjesuschrist.org` (scheme `https`, authority
`www.churchofjesuschrist.org`, empty path).  The model below follows
`urllib.parse.urljoin` for that base: a reference carrying a scheme other
than `https` is returned unchanged; an `https` reference is re-resolved
exactly like a scheme-less one; network-path, absolute-path, empty,
query-only and fragment-only references are resolved against the base; any
other reference is a relative path, which against the empty base path
resolves to `/` followed by the reference.  Dot-segment normalisation is
not modelled; no input in this development contains dot segments. -/

/-- Fixed base host of the script (`BASE` in the source). -/
def BASE : String := "https://www.churchofjesuschrist.org"

/-- Characters allowed inside a URL scheme (`scheme_chars` in
`urllib.parse`). -/
def isSchemeChar (c : Char) : Bool :=
  isAsciiAlpha c || pyIsDigit c || c = '+' || c = '-' || c = '.'

/-- Scan for the `scheme:` split of a reference: consume scheme characters
until a colon; fail at the end of the string or at any other character. -/
def splitAtColon : List Char → Option (List Char × List Char)
  | [] => none
  | c :: cs =>
      if c = ':' then some ([], cs)
      else if isSchemeChar c then (splitAtColon cs).map (fun p => (c :: p.1, p.2))
      else none

/-- Split a reference into scheme and remainder, when the reference has a
scheme: a leading ASCII letter, scheme characters, then a colon. -/
def schemeSplit (u : String) : Option (String × String) :=
  match u.data with
  | [] => none
  | c :: cs =>
      if isAsciiAlpha c then
        (splitAtColon (c :: cs)).map (fun p => (String.mk p.1, String.mk p.2))
      else none

/-- A string is an absolute URL when it carries a scheme. -/
def hasScheme (u : String) : Bool := (schemeSplit u).isSome

/-- Resolve a scheme-less reference against the fixed base. -/
def resolveRef (rest : String) : String :=
  match rest.data with
  | [] => BASE
  | '/' :: '/' :: _ => "https:" ++ rest
  | '/' :: _ => BASE ++ rest
  | '#' :: _ => BASE ++ rest
  | '?' :: _ => BASE ++ rest
  | _ => BASE ++ "/" ++ rest

/-- Model of `urljoin(BASE, u)` for the fixed base of the script. -/
def urljoin (u : String) : String :=
  match schemeSplit u with
  | some (sc, rest) => if sc.toLower = "https" then resolveRef rest else u
  | none => resolveRef u

/-- Lines 23 to 26 of the source: `absolute_url` returns the empty string
for a falsy input and otherwise joins the input onto the fixed base. -/
def absolute_url (u : String) : String :=
  if u = "" then "" else urljoin u

/-! ### Responsive candidate parsing

Lines 42 to 46 (and their copies) of the source split the `srcset`
attribute at commas, strip each part, and match it against the regex
`(\S+)\s+(\d+)w` with `re.match`, that is, anchored at the start of the
part only.  Each greedy quantifier in that regex is forced: `\S+` cannot
backtrack past the whitespace required next, `\s+` cannot backtrack past
the digit required next, and `\d+` cannot backtrack past the literal `w`,
so the match is equivalent to taking maximal runs. -/

/-- Match `(\S+)\s+(\d+)w` at the start of an already-stripped part,
returning the integer width and the URL, as built on line 46 of the
source. -/
def parseCandidate (part : List Char) : Option (Nat × String) :=
  let url := part.takeWhile (fun c => !pyIsSpace c)
  if url.isEmpty then none
  else
    let rest1 := (part.drop url.length)
    let ws := rest1.takeWhile pyIsSpace
    if ws.isEmpty then none
    else
      let rest2 := rest1.drop ws.length
      let digits := rest2.takeWhile pyIsDigit
      if digits.isEmpty then none
      else
        match rest2.drop digits.length with
        | 'w' :: _ => some (natOfDigits digits, String.mk url)
        | _ => none

/-- The candidate list built from a `srcset` value: split at commas, strip
each part, keep the parts the regex accepts. -/
def parseCandidates (srcset : String) : List (Nat × String) :=
  (splitOnComma srcset.data).filterMap (fun p => parseCandidate (pyStrip p))

/-! ### Python sorting

`candidates.sort(key=lambda x: x[0])` is a stable sort by width;
`candidates.sort()` with no key compares the `(int, str)` tuples
lexicographically.  Both are modelled by `List.insertionSort`, which is
stable and sorts by the given relation. -/

/-- Comparison used by `sort(key=lambda x: x[0])`: widths only. -/
def widthR (a b : Nat × String) : Prop := a.1 ≤ b.1

instance : DecidableRel widthR := fun a b => Nat.decLe a.1 b.1

instance : IsTotal (Nat × String) widthR := ⟨fun a b => Nat.le_total a.1 b.1⟩

instance : IsTrans (Nat × String) widthR := ⟨fun _ _ _ => Nat.le_trans⟩

/-- Comparison used by `sort()` on `(int, str)` pairs: width first, then
the URL string by code points. -/
def tupleR (a b : Nat × String) : Prop := a.1 < b.1 ∨ (a.1 = b.1 ∧ strLe a.2 b.2)

instance : DecidableRel tupleR := fun _ _ => instDecidableOr

/-- One step of direct maximum selection: prefer the current best `b`
over the earlier element `x` exactly when `x` precedes `b` in the order,
so that on ties the later element wins. -/
def lastPick (r : α → α → Prop) [DecidableRel r] (x : α) : Option α → Option α
  | none => some x
  | some b => if r x b then some b else some x

/-- The element Python `sorted_list[-1]` denotes, computed directly: the
last element of the list attaining the maximal key.  The selection made by
`sort` followed by indexing with `-1` is proved equal to this. -/
def chooseLast (r : α → α → Prop) [DecidableRel r] : List α → Option α
  | [] => none
  | c :: cs => lastPick r c (chooseLast r cs)

/-! ### HTML document model

A BeautifulSoup document is a tree of elements with tag names, attribute
lists and children, plus text nodes.  The tree is a pair of mutually
inductive types so that every traversal is structural and reduces in the
kernel.  Document order is preorder traversal, which is the order both
`select_one` and `find` use. -/

mutual
inductive Node where
  | text (s : String)
  | elem (tag : String) (attrs : List (String × String)) (children : NodeList)
deriving DecidableEq
inductive NodeList where
  | nil
  | cons (n : Node) (l : NodeList)
deriving DecidableEq
end

/-- Build a `NodeList` from a `List`, for writing documents conveniently. -/
def nodesOf : List Node → NodeList
  | [] => .nil
  | n :: l => .cons n (nodesOf l)

/-- First value bound to a key in an attribute list. -/
def attrLookup : List (String × String) → String → Option String
  | [], _ => none
  | (k, v) :: rest, key => if k = key then some v else attrLookup rest key

/-- Python `tag.get(key, "")`: the attribute value, or the empty string
when the attribute is absent. -/
def Node.attrD : Node → String → String
  | .text _, _ => ""
  | .elem _ a _, key => (attrLookup a key).getD ""

/-- Whether an element carries an attribute at all, the meaning of
`find("img", srcset=True)` in BeautifulSoup. -/
def Node.hasAttr : Node → String → Bool
  | .text _, _ => false
  | .elem _ a _, key => (attrLookup a key).isSome

/-- The whitespace-separated class tokens of an attribute value, used by
CSS class selectors. -/
def classTokens (v : String) : List String :=
  ((v.data.splitOnP pyIsSpace).filter (fun l => !l.isEmpty)).map String.mk

/-- Whether an attribute list carries a class token. -/
def hasClassToken (a : List (String × String)) (tok : String) : Bool :=
  match attrLookup a "class" with
  | some v => (classTokens v).contains tok
  | none => false

mutual
/-- First element in document order satisfying a predicate on tag and
attributes; the meaning of `soup.select_one` and `soup.find` for the
simple selectors the script uses. -/
def findElem (p : String → List (String × String) → Bool) : Node → Option Node
  | .text _ => none
  | .elem t a cs => if p t a then some (.elem t a cs) else findElemL p cs
def findElemL (p : String → List (String × String) → Bool) : NodeList → Option Node
  | .nil => none
  | .cons n l =>
      match findElem p n with
      | some r => some r
      | none => findElemL p l
end

mutual
/-- First element in document order with tag `img` and an ancestor with
tag `figure`; the meaning of `select_one("figure img")`.  The flag records
whether an ancestor of the current node is a `figure`. -/
def findFigImg : Bool → Node → Option Node
  | _, .text _ => none
  | inFig, .elem t a cs =>
      if t = "img" && inFig then some (.elem t a cs)
      else findFigImgL (inFig || t = "figure") cs
def findFigImgL : Bool → NodeList → Option Node
  | _, .nil => none
  | inFig, .cons n l =>
      match findFigImg inFig n with
      | some r => some r
      | none => findFigImgL inFig l
end

/-- Line 36: `soup.select_one("img#img1")`. -/
def findHero (doc : Node) : Option Node :=
  findElem (fun t a => t = "img" && attrLookup a "id" = some "img1") doc

/-- Line 57: `soup.select_one("figure img")`. -/
def findFigureImg (doc : Node) : Option Node :=
  findFigImg false doc

/-- Line 77: `soup.find("img")`. -/
def findAnyImg (doc : Node) : Option Node :=
  findElem (fun t _ => t = "img") doc

/-- Line 124: `soup.find("img", srcset=True)`, the first image element
anywhere that carries a `srcset` attribute, whatever its value. -/
def findImgSrcset (doc : Node) : Option Node :=
  findElem (fun t a => t = "img" && (attrLookup a "srcset").isSome) doc

/-- Line 114: `soup.select_one("p.title-number")`. -/
def findTitleNumber (doc : Node) : Option Node :=
  findElem (fun t a => t = "p" && hasClassToken a "title-number") doc

/-- Line 115: `soup.select_one("h1")`. -/
def findH1 (doc : Node) : Option Node :=
  findElem (fun t _ => t = "h1") doc

/-! ### Image selection (`pick_first_image`, lines 29 to 95)

The three tiers of `pick_first_image` run the same body: prefer the
largest `srcset` candidate, else the plain `src` attribute, else fall
through to the next tier.  An early `return` corresponds to the first
`some` below. -/

/-- Selection from a candidate list in tiers one to four: sort the parsed
candidates stably by width and return the absolute URL of the last one,
when there is one. -/
def pickFromSrcset (srcset : String) : Option String :=
  match (List.insertionSort widthR (parseCandidates srcset)).getLast? with
  | some c => some (absolute_url c.2)
  | none => none

/-- The `srcset` arm of one tier (lines 39 to 49 and copies): when the
attribute is non-empty and at least one candidate parses, select from the
candidate list. -/
def srcsetStep (img : Node) : Option String :=
  if img.attrD "srcset" = "" then none
  else pickFromSrcset (img.attrD "srcset")

/-- The `src` arm of one tier (lines 52 to 54 and copies). -/
def srcStep (img : Node) : Option String :=
  let s := img.attrD "src"
  if s = "" then none else some (absolute_url s)

/-- One full tier body: `srcset` arm, else `src` arm. -/
def tryImg (img : Node) : Option String :=
  (srcsetStep img).orElse fun _ => srcStep img

/-- Lines 29 to 95: hero image, else first figure image, else any image,
else the empty string. -/
def pick_first_image (doc : Node) : String :=
  match (findHero doc).bind tryImg with
  | some u => u
  | none =>
      match (findFigureImg doc).bind tryImg with
      | some u => u
      | none =>
          match (findAnyImg doc).bind tryImg with
          | some u => u
          | none => ""

/-- Lines 126 to 134: candidate parsing of the fallback block, identical
to the tiers above except that `candidates.sort()` takes no key, so the
`(int, str)` tuples compare by width and then by URL string. -/
def fallbackPickFromSrcset (srcset : String) : Option String :=
  match (List.insertionSort tupleR (parseCandidates srcset)).getLast? with
  | some c => some (absolute_url c.2)
  | none => none

/-- Lines 123 to 134: the fallback image block of `scrape_week`, run only
when `pick_first_image` produced the empty string.  `find` returns the
first image with a `srcset` attribute; the guard `img.get("srcset")` then
requires the value to be non-empty. -/
def fallback_image (doc : Node) : String :=
  match findImgSrcset doc with
  | none => ""
  | some img =>
      if img.attrD "srcset" = "" then ""
      else (fallbackPickFromSrcset (img.attrD "srcset")).getD ""

/-- Lines 120 to 134: the image URL `scrape_week` would store, combining
`pick_first_image` with the fallback block. -/
def select_image (doc : Node) : String :=
  let u := pick_first_image doc
  if u = "" then fallback_image doc else u

/-! ### The five tiers as the specification enumerates them

The specification describes image selection as five tiers tried in
priority order, stopping at the first one producing a URL.  These
definitions follow that enumeration; the refinement theorem below proves
that `select_image` equals the priority chain. -/

/-- Tier 1: the hero element candidate list. -/
def tierHeroSrcset (doc : Node) : Option String :=
  (findHero doc).bind srcsetStep

/-- Tier 2: the hero element plain source attribute. -/
def tierHeroSrc (doc : Node) : Option String :=
  (findHero doc).bind srcStep

/-- Tier 3: the two-step logic on the first image inside a figure
container. -/
def tierFigure (doc : Node) : Option String :=
  (findFigureImg doc).bind tryImg

/-- Tier 4: the two-step logic on the first image element anywhere. -/
def tierAny (doc : Node) : Option String :=
  (findAnyImg doc).bind tryImg

/-- Tier 5: the first image anywhere with a candidate-list attribute. -/
def tierSrcsetAnywhere (doc : Node) : Option String :=
  (findImgSrcset doc).bind fun img =>
    if img.attrD "srcset" = "" then none
    else fallbackPickFromSrcset (img.attrD "srcset")

/-- The five tiers in priority order, first success wins, empty string
when every tier fails. -/
def specTiers (doc : Node) : String :=
  ((((tierHeroSrcset doc <|> tierHeroSrc doc) <|> tierFigure doc) <|>
      tierAny doc) <|> tierSrcsetAnywhere doc).getD ""

/-- Rendering of the final-fallback sentence of the specification, which
says the widths are not parsed as integers before sorting: candidates keep
their width strings and the `(width string, URL)` pairs are sorted
lexicographically as strings, the last one winning. -/
def parseCandidateStr (part : List Char) : Option (String × String) :=
  let url := part.takeWhile (fun c => !pyIsSpace c)
  if url.isEmpty then none
  else
    let rest1 := (part.drop url.length)
    let ws := rest1.takeWhile pyIsSpace
    if ws.isEmpty then none
    else
      let rest2 := rest1.drop ws.length
      let digits := rest2.takeWhile pyIsDigit
      if digits.isEmpty then none
      else
        match rest2.drop digits.length with
        | 'w' :: _ => some (String.mk digits, String.mk url)
        | _ => none

/-- String-pair comparison for the specification rendering: width strings
first, then URLs, both by code points. -/
def strPairR (a b : String × String) : Prop :=
  strLt a.1 b.1 ∨ (a.1 = b.1 ∧ strLe a.2 b.2)

instance : DecidableRel strPairR := fun _ _ => instDecidableOr

/-- The selection the specification describes for the final fallback
tier: sort with widths kept as strings, take the last candidate, resolve
it against the base. -/
def specLexFallbackPick (srcset : String) : Option String :=
  let cands := (splitOnComma srcset.data).filterMap (fun p => parseCandidateStr (pyStrip p))
  match (List.insertionSort strPairR cands).getLast? with
  | some c => some (absolute_url c.2)
  | none => none

/-! ### Calendar model (`iso_week_number`, lines 17 to 20)

The script calls `d.isocalendar().week` and clamps with `min(wk, 52)`.
The embedding follows the CPython `datetime` implementation: proleptic
Gregorian ordinals via `_days_before_year`, `_days_before_month` and
`_ymd2ord`, the Monday of ISO week one via `_isoweek1monday`, and the week
computation of `isocalendar`.  Python floor division and modulo become
`Int.fdiv` and `Int.emod`, which agree with them on the positive divisors
used here. -/

structure PyDate where
  year : Int
  month : Int
  day : Int
deriving DecidableEq

/-- CPython `_is_leap`. -/
def isLeapYear (y : Int) : Bool :=
  y % 4 = 0 && (y % 100 ≠ 0 || y % 400 = 0)

/-- CPython `_days_before_year`: days before January 1st of the year. -/
def daysBeforeYear (y : Int) : Int :=
  (y - 1) * 365 + (y - 1).fdiv 4 - (y - 1).fdiv 100 + (y - 1).fdiv 400

/-- CPython `_DAYS_BEFORE_MONTH` plus the leap adjustment of
`_days_before_month`. -/
def daysBeforeMonth (y m : Int) : Int :=
  (if m = 1 then 0 else if m = 2 then 31 else if m = 3 then 59
   else if m = 4 then 90 else if m = 5 then 120 else if m = 6 then 151
   else if m = 7 then 181 else if m = 8 then 212 else if m = 9 then 243
   else if m = 10 then 273 else if m = 11 then 304 else 334)
  + (if 2 < m && isLeapYear y then 1 else 0)

/-- CPython `_DAYS_IN_MONTH` with the February leap case. -/
def daysInMonth (y m : Int) : Int :=
  if m = 2 then (if isLeapYear y then 29 else 28)
  else if m = 4 || m = 6 || m = 9 || m = 11 then 30
  else 31

/-- CPython `_ymd2ord`: proleptic Gregorian ordinal of a date. -/
def ymd2ord (y m d : Int) : Int :=
  daysBeforeYear y + daysBeforeMonth y m + d

/-- CPython `_isoweek1monday`: ordinal of the Monday starting ISO week one
of the year. -/
def isoweek1monday (y : Int) : Int :=
  let firstday := ymd2ord y 1 1
  let firstweekday := (firstday + 6) % 7
  if 3 < firstweekday then firstday - firstweekday + 7 else firstday - firstweekday

/-- CPython `date.isocalendar().week`. -/
def isoWeek (dt : PyDate) : Int :=
  let today := ymd2ord dt.year dt.month dt.day
  let week := (today - isoweek1monday dt.year).fdiv 7
  if week < 0 then
    (today - isoweek1monday (dt.year - 1)).fdiv 7 + 1
  else if 52 ≤ week then
    (if isoweek1monday (dt.year + 1) ≤ today then 1 else week + 1)
  else week + 1

/-- Lines 17 to 20 of the source: the ISO week clamped to 52. -/
def iso_week_number (dt : PyDate) : Int :=
  min (isoWeek dt) 52

/-- A calendar date the Python `date` type can hold. -/
def ValidDate (dt : PyDate) : Prop :=
  1 ≤ dt.year ∧ dt.year ≤ 9999 ∧ 1 ≤ dt.month ∧ dt.month ≤ 12 ∧
    1 ≤ dt.day ∧ dt.day ≤ daysInMonth dt.year dt.month

instance (dt : PyDate) : Decidable (ValidDate dt) := by
  unfold ValidDate; infer_instance

/-! ### The run model (`scrape_week` and `main`, lines 98 to 165)

The network is an oracle: a run sees either a transport failure or a
response carrying a status code and a parsed document.  `raise_for_status`
raises for status codes 400 to 599.  After a successful fetch,
`scrape_week` evaluates the two `select_one` calls and then the name
`get_text_or_empty`; Python resolves a name before calling it, and the
module binds no such name, so this step is a `NameError`.  The remainder
of the body, reachable only if the lookup had succeeded, is embedded with
the looked-up text extractor applied to the heading elements. -/

inductive PyError where
  | nameError (n : String)
  | httpError (status : Int)
  | timeoutError
  | connectionError
deriving DecidableEq

/-- The network as a run sees it. -/
inductive NetResult where
  | resp (status : Int) (body : Node)
  | timeout
  | connError
deriving DecidableEq

/-- Lines 101 to 108: the GET plus `raise_for_status`, which raises for
client and server error statuses. -/
def fetch_week (net : NetResult) : Except PyError Node :=
  match net with
  | .timeout => .error .timeoutError
  | .connError => .error .connectionError
  | .resp status body =>
      if 400 ≤ status ∧ status < 600 then .error (.httpError status) else .ok body

/-- The error a given network outcome produces at fetch time, if any. -/
def netError : NetResult → Option PyError
  | .timeout => some .timeoutError
  | .connError => some .connectionError
  | .resp status _ => if 400 ≤ status ∧ status < 600 then some (.httpError status) else none

/-- Names bound at module scope of `build_cfm_weekly.py`: the imports of
lines 2 to 9, the constants of lines 11 to 14, and the functions defined
at lines 17, 23, 29, 98 and 147.  `os` is imported locally inside `main`. -/
def moduleScopeNames : List String :=
  ["json", "re", "sys", "date", "datetime", "timezone", "urljoin",
   "requests", "BeautifulSoup", "BASE", "MANUAL_PATH", "OUT_JSON",
   "iso_week_number", "absolute_url", "pick_first_image", "scrape_week", "main"]

/-- The element-to-text helpers the module binds.  No statement of the
source defines a function named `get_text_or_empty` (see
`moduleScopeNames`), and it is not a Python builtin, so this table is
empty. -/
def textFunctions : List (String × (Option Node → String)) := []

/-- Python name resolution for the call at line 117: find a bound function
of the given name, or raise `NameError`. -/
def lookupTextFunction (n : String) : Except PyError (Option Node → String) :=
  match (textFunctions.filter (fun p => p.1 = n)).head? with
  | some p => .ok p.2
  | none => .error (.nameError n)

/-- Zero-padding of the week number as `"{week:02d}"` renders it. -/
def padWeek (week : Int) : String :=
  let s := toString week
  if s.length < 2 then "0" ++ s else s

/-- Line 99: the page URL for a week. -/
def source_url_for (week : Int) : String :=
  BASE ++ "/study/manual/come-follow-me-for-home-and-church-old-testament-2026/"
    ++ padWeek week ++ "?lang=eng"

/-- The Weekly Study Record of the output file. -/
structure WeeklyRecord where
  generated_at_utc : String
  week_number : Int
  source_url : String
  image_url : String
  small_heading : String
  big_heading : String
deriving DecidableEq

/-- Lines 137 to 144: the record literal of `scrape_week`, with the
generation timestamp taken from the clock at return time. -/
def mkRecord (now : String) (week : Int) (image_url small_heading big_heading : String) :
    WeeklyRecord :=
  { generated_at_utc := now, week_number := week, source_url := source_url_for week,
    image_url := image_url, small_heading := small_heading, big_heading := big_heading }

/-- Lines 113 to 144: the extraction part of `scrape_week`, given the
parsed document and the clock reading `now`. -/
def scrape_week_extract (week : Int) (doc : Node) (now : String) :
    Except PyError WeeklyRecord :=
  let smallEl := findTitleNumber doc
  let bigEl := findH1 doc
  match lookupTextFunction "get_text_or_empty" with
  | .error e => .error e
  | .ok getText =>
      let small_heading := getText smallEl
      let big_heading := getText bigEl
      let image_url := select_image doc
      .ok (mkRecord now week image_url small_heading big_heading)

/-- Lines 98 to 144: `scrape_week` as a whole, fetch then extraction. -/
def scrape_week_run (week : Int) (now : String) (net : NetResult) :
    Except PyError WeeklyRecord :=
  match fetch_week net with
  | .error e => .error e
  | .ok doc => scrape_week_extract week doc now

/-- Observable outcome of one run of `main`: the record written to the
output file if any, the lines printed to the error stream and to standard
output, and the exception the process re-raised if any. -/
structure RunOutcome where
  written : Option WeeklyRecord
  errStream : List String
  outStream : List String
  raised : Option PyError
deriving DecidableEq

/-- Message text of an exception, as interpolated into the error line. -/
def showPyError : PyError → String
  | .nameError n => "name `" ++ n ++ "` is not defined"
  | .httpError s => "HTTP error " ++ toString s
  | .timeoutError => "timed out"
  | .connectionError => "connection error"

/-- Lines 147 to 165: `main`.  On any exception from `scrape_week` the
error line is printed and the exception re-raised before the output path
is touched; otherwise the record is written and the summary printed. -/
def main_run (today : PyDate) (now : String) (net : NetResult) : RunOutcome :=
  let week := iso_week_number today
  match scrape_week_run week now net with
  | .error e =>
      { written := none,
        errStream := ["ERROR scraping week " ++ toString week ++ ": " ++ showPyError e],
        outStream := [], raised := some e }
  | .ok payload =>
      { written := some payload, errStream := [],
        outStream := ["Wrote data/come_follow_me_this_week.json for week "
          ++ toString week ++ ": " ++ payload.big_heading],
        raised := none }

/-! ### Concrete documents used as test inputs -/

/-- A page whose hero image carries the candidate list of the
specification test: `"a.jpg 400w, b.jpg 1200w, c.jpg 800w"`. -/
def heroDoc : Node :=
  .elem "html" [] (nodesOf [
    .elem "body" [] (nodesOf [
      .elem "img" [("id", "img1"), ("srcset", "a.jpg 400w, b.jpg 1200w, c.jpg 800w")] .nil])])

/-- A page whose hero image carries a candidate list with a width tie. -/
def heroTieDoc : Node :=
  .elem "html" [] (nodesOf [
    .elem "img" [("id", "img1"), ("srcset", "a.jpg 800w, b.jpg 800w")] .nil])

/-- A page on which the final fallback tier fires: the first image has no
attributes at all, so tiers one to four produce nothing, while a later
image carries a candidate list whose width strings have unequal digit
counts. -/
def fbDoc : Node :=
  .elem "html" [] (nodesOf [
    .elem "body" [] (nodesOf [
      .elem "img" [] .nil,
      .elem "img" [("srcset", "z.jpg 800w, a.jpg 1200w")] .nil])])

/-- A page with no label element, no title element and no image element. -/
def emptyDoc : Node :=
  .elem "html" [] .nil

/-! ### Order facts for the comparison relations -/

instance : IsTotal (Nat × String) tupleR := by
  constructor
  intro a b
  have key : ∀ x y : List Char, charListLt x y = false → charListLt y x = false → x = y := by
    intro x
    induction x with
    | nil =>
        intro y h1 h2
        cases y with
        | nil => rfl
        | cons d ds => simp [charListLt] at h1
    | cons c cs ih =>
        intro y h1 h2
        cases y with
        | nil => simp [charListLt] at h2
        | cons d ds =>
            simp only [charListLt] at h1 h2
            by_cases hcd : c < d
            · rw [if_pos hcd] at h1; cases h1
            · by_cases hdc : d < c
              · rw [if_pos hdc] at h2; cases h2
              · rw [if_neg hcd, if_neg hdc] at h1
                have hce : c = d := le_antisymm (not_lt.mp hdc) (not_lt.mp hcd)
                rw [if_neg hdc, if_neg hcd] at h2
                rw [hce, ih ds h1 h2]
  rcases Nat.lt_trichotomy a.1 b.1 with h | h | h
  · exact Or.inl (Or.inl h)
  · by_cases hlt : charListLt a.2.data b.2.data = true
    · exact Or.inl (Or.inr ⟨h, Or.inl hlt⟩)
    · by_cases hlt2 : charListLt b.2.data a.2.data = true
      · exact Or.inr (Or.inr ⟨h.symm, Or.inl hlt2⟩)
      · have hd : a.2.data = b.2.data :=
          key _ _ (Bool.eq_false_iff.mpr hlt) (Bool.eq_false_iff.mpr hlt2)
        have hs : a.2 = b.2 := String.ext hd
        exact Or.inl (Or.inr ⟨h, Or.inr hs⟩)
  · exact Or.inr (Or.inl h)

instance : IsTrans (Nat × String) tupleR := by
  constructor
  intro a b c hab hbc
  have key : ∀ x y z : List Char, charListLt x y = true → charListLt y z = true →
      charListLt x z = true := by
    intro x
    induction x with
    | nil =>
        intro y z h1 h2
        cases y with
        | nil => simp [charListLt] at h1
        | cons d ds =>
            cases z with
            | nil => simp [charListLt] at h2
            | cons e es => simp [charListLt]
    | cons cx cxs ih =>
        intro y z h1 h2
        cases y with
        | nil => simp [charListLt] at h1
        | cons d ds =>
            cases z with
            | nil => simp [charListLt] at h2
            | cons e es =>
                simp only [charListLt] at h1 h2 ⊢
                by_cases h1a : cx < d
                · by_cases h2a : d < e
                  · rw [if_pos (lt_trans h1a h2a)]
                  · by_cases h2b : e < d
                    · rw [if_neg h2a, if_pos h2b] at h2; exact Bool.noConfusion h2
                    · have hde : d = e := le_antisymm (not_lt.mp h2b) (not_lt.mp h2a)
                      rw [if_pos (hde ▸ h1a)]
                · by_cases h1b : d < cx
                  · rw [if_neg h1a, if_pos h1b] at h1; exact Bool.noConfusion h1
                  · rw [if_neg h1a, if_neg h1b] at h1
                    have hcd : cx = d := le_antisymm (not_lt.mp h1b) (not_lt.mp h1a)
                    by_cases h2a : d < e
                    · rw [if_pos (hcd ▸ h2a)]
                    · by_cases h2b : e < d
                      · rw [if_neg h2a, if_pos h2b] at h2; exact Bool.noConfusion h2
                      · rw [if_neg h2a, if_neg h2b] at h2
                        have hde : d = e := le_antisymm (not_lt.mp h2b) (not_lt.mp h2a)
                        have hnlt : ¬ cx < e := by rw [← hde, hcd]; exact lt_irrefl d
                        have hnlt2 : ¬ e < cx := by rw [← hde, hcd]; exact lt_irrefl d
                        rw [if_neg hnlt, if_neg hnlt2]
                        exact ih ds es h1 h2
  rcases hab with h1 | h1
  · rcases hbc with h2 | h2
    · exact Or.inl (lt_trans h1 h2)
    · exact Or.inl (h2.1 ▸ h1)
  · rcases hbc with h2 | h2
    · exact Or.inl (h1.1 ▸ h2)
    · refine Or.inr ⟨h1.1.trans h2.1, ?_⟩
      rcases h1.2 with hlt1 | heq1
      · rcases h2.2 with hlt2 | heq2
        · exact Or.inl (key _ _ _ hlt1 hlt2)
        · exact Or.inl (heq2 ▸ hlt1)
      · rw [heq1]; exact h2.2

/-! ### Sorted-list selection: `sort` then index `-1` equals `chooseLast` -/

theorem orderedInsert_ne_nil (r : α → α → Prop) [DecidableRel r] (l : List α) (x : α) :
    l.orderedInsert r x ≠ [] := by
  intro h
  have := List.orderedInsert_length r l x
  rw [h] at this
  simp at this

theorem lastPick_isSome (r : α → α → Prop) [DecidableRel r] (x : α) (o : Option α) :
    lastPick r x o ≠ none := by
  cases o with
  | none => simp [lastPick]
  | some b => rw [lastPick]; split <;> simp

theorem getLast?_orderedInsert (r : α → α → Prop) [DecidableRel r] [IsTotal α r] [IsTrans α r]
    (x : α) : ∀ l : List α, l.Sorted r →
      (l.orderedInsert r x).getLast? = lastPick r x l.getLast?
  | [], _ => by simp [lastPick]
  | y :: ys, h => by
    rw [List.orderedInsert]
    by_cases hxy : r x y
    · rw [if_pos hxy, List.getLast?_cons_cons]
      cases hys : (y :: ys).getLast? with
      | none => simp at hys
      | some b =>
          have hb : b ∈ y :: ys := List.mem_of_mem_getLast? hys
          have hxb : r x b := by
            rcases List.mem_cons.mp hb with hby | hbys
            · rw [hby]; exact hxy
            · exact Trans.trans hxy ((List.sorted_cons.mp h).1 b hbys)
          rw [lastPick, if_pos hxb]
    · rw [if_neg hxy]
      cases ys with
      | nil =>
          simp only [List.orderedInsert]
          rw [List.getLast?_cons_cons]
          simp [lastPick, hxy]
      | cons z zs =>
          have htail := getLast?_orderedInsert r x (z :: zs) (List.sorted_cons.mp h).2
          obtain ⟨b, L, hbl⟩ :=
            List.exists_cons_of_ne_nil (orderedInsert_ne_nil r (z :: zs) x)
          rw [hbl, List.getLast?_cons_cons, ← hbl, htail, List.getLast?_cons_cons]

theorem getLast?_insertionSort (r : α → α → Prop) [DecidableRel r] [IsTotal α r] [IsTrans α r] :
    ∀ l : List α, (List.insertionSort r l).getLast? = chooseLast r l
  | [] => rfl
  | c :: cs => by
    rw [List.insertionSort,
      getLast?_orderedInsert r c (List.insertionSort r cs) (List.sorted_insertionSort r cs),
      getLast?_insertionSort r cs, chooseLast]

theorem chooseLast_mem (r : α → α → Prop) [DecidableRel r] :
    ∀ (l : List α) (b : α), chooseLast r l = some b → b ∈ l
  | [], b, h => by cases h
  | c :: cs, b, h => by
    rw [chooseLast] at h
    cases hcs : chooseLast r cs with
    | none => rw [hcs, lastPick] at h; exact (Option.some_inj.mp h) ▸ List.mem_cons_self c cs
    | some b' =>
        rw [hcs, lastPick] at h
        by_cases hr : r c b'
        · rw [if_pos hr] at h
          have hb : b = b' := (Option.some_inj.mp h).symm
          rw [hb]
          exact List.mem_cons_of_mem c (chooseLast_mem r cs b' hcs)
        · rw [if_neg hr] at h
          exact (Option.some_inj.mp h) ▸ List.mem_cons_self c cs

theorem chooseLast_rel (r : α → α → Prop) [DecidableRel r] [IsTotal α r] [IsTrans α r] :
    ∀ (l : List α) (b : α), chooseLast r l = some b → ∀ a ∈ l, r a b
  | [], b, h => by cases h
  | c :: cs, b, h => by
    intro a ha
    rw [chooseLast] at h
    cases hcs : chooseLast r cs with
    | none =>
        rw [hcs, lastPick] at h
        have hb : b = c := (Option.some_inj.mp h).symm
        cases cs with
        | nil =>
            have : a = c := by simpa using ha
            rw [this, hb]
            rcases total_of r c c with hc | hc <;> exact hc
        | cons z zs =>
            exact absurd hcs (by rw [chooseLast]; exact lastPick_isSome r z _)
    | some b' =>
        rw [hcs, lastPick] at h
        by_cases hr : r c b'
        · rw [if_pos hr] at h
          have hb : b = b' := (Option.some_inj.mp h).symm
          rcases List.mem_cons.mp ha with hac | hacs
          · rw [hac, hb]; exact hr
          · rw [hb]; exact chooseLast_rel r cs b' hcs a hacs
        · rw [if_neg hr] at h
          have hb : b = c := (Option.some_inj.mp h).symm
          rcases List.mem_cons.mp ha with hac | hacs
          · rw [hac, hb]
            rcases total_of r c c with hc | hc <;> exact hc
          · rw [hb]
            have hab' : r a b' := chooseLast_rel r cs b' hcs a hacs
            have hbc : r b' c := (total_of r c b').resolve_left hr
            exact Trans.trans hab' hbc

/-! ### Facts about candidate parsing -/

theorem parseCandidate_snd_ne (p : List Char) (c : Nat × String)
    (h : parseCandidate p = some c) : c.2 ≠ "" := by
  simp only [parseCandidate] at h
  split at h
  · cases h
  · rename_i hurl
    split at h
    · cases h
    · split at h
      · cases h
      · split at h
        · have hc2 : c.2 = String.mk (p.takeWhile (fun c => !pyIsSpace c)) := by
            rw [← Option.some_inj.mp h]
          intro he
          rw [hc2] at he
          have hdata : p.takeWhile (fun c => !pyIsSpace c) = [] := congrArg String.data he
          rw [← List.isEmpty_iff] at hdata
          exact hurl hdata
        · cases h

theorem parseCandidates_snd_ne (s : String) :
    ∀ c ∈ parseCandidates s, c.2 ≠ "" := by
  intro c hc
  rw [parseCandidates, List.mem_filterMap] at hc
  obtain ⟨part, _, hp⟩ := hc
  exact parseCandidate_snd_ne (pyStrip part) c hp

theorem parseCandidates_empty : parseCandidates "" = [] := rfl

/-! ### Facts about URL resolution -/

theorem splitAtColon_https (l : List Char) :
    splitAtColon ('h' :: 't' :: 't' :: 'p' :: 's' :: ':' :: l) = some (['h', 't', 't', 'p', 's'], l) := by
  simp [splitAtColon, isSchemeChar, isAsciiAlpha, pyIsDigit]

theorem hasScheme_https_append (s : String) : hasScheme ("https:" ++ s) = true := by
  have hd : ("https:" ++ s).data = 'h' :: 't' :: 't' :: 'p' :: 's' :: ':' :: s.data := by
    rw [String.data_append]
    rfl
  rw [hasScheme, schemeSplit, hd]
  simp [splitAtColon_https]
  decide

theorem base_split : BASE = "https:" ++ "//www.churchofjesuschrist.org" := by decide

theorem hasScheme_base_append (s : String) : hasScheme (BASE ++ s) = true := by
  rw [base_split, String.append_assoc]
  exact hasScheme_https_append _

theorem resolveRef_hasScheme (r : String) : hasScheme (resolveRef r) = true := by
  rw [resolveRef]
  split
  · decide
  · exact hasScheme_https_append _
  · exact hasScheme_base_append _
  · exact hasScheme_base_append _
  · exact hasScheme_base_append _
  · rw [String.append_assoc]
    exact hasScheme_base_append _

theorem urljoin_hasScheme (u : String) : hasScheme (urljoin u) = true := by
  rw [urljoin]
  cases hs : schemeSplit u with
  | none => exact resolveRef_hasScheme u
  | some p =>
      obtain ⟨sc, rest⟩ := p
      show hasScheme (if sc.toLower = "https" then resolveRef rest else u) = true
      by_cases ht : sc.toLower = "https"
      · rw [if_pos ht]
        exact resolveRef_hasScheme rest
      · rw [if_neg ht, hasScheme, hs]
        rfl

theorem hasScheme_ne_empty (s : String) (h : hasScheme s = true) : s ≠ "" := by
  intro he
  rw [he] at h
  cases h

theorem absolute_url_hasScheme (u : String) (h : u ≠ "") :
    hasScheme (absolute_url u) = true := by
  rw [absolute_url, if_neg h]
  exact urljoin_hasScheme u

theorem absolute_url_ne_empty (u : String) (h : u ≠ "") : absolute_url u ≠ "" :=
  hasScheme_ne_empty _ (absolute_url_hasScheme u h)

/-! ### Shape of the values the image-selection steps produce -/

theorem pickFromSrcset_some (s u : String) (h : pickFromSrcset s = some u) :
    ∃ c ∈ parseCandidates s, u = absolute_url c.2 := by
  rw [pickFromSrcset] at h
  split at h
  · rename_i c hc
    have hmem : c ∈ List.insertionSort widthR (parseCandidates s) :=
      List.mem_of_mem_getLast? hc
    rw [List.mem_insertionSort] at hmem
    exact ⟨c, hmem, (Option.some_inj.mp h).symm⟩
  · cases h

theorem fallbackPickFromSrcset_some (s u : String) (h : fallbackPickFromSrcset s = some u) :
    ∃ c ∈ parseCandidates s, u = absolute_url c.2 := by
  rw [fallbackPickFromSrcset] at h
  split at h
  · rename_i c hc
    have hmem : c ∈ List.insertionSort tupleR (parseCandidates s) :=
      List.mem_of_mem_getLast? hc
    rw [List.mem_insertionSort] at hmem
    exact ⟨c, hmem, (Option.some_inj.mp h).symm⟩
  · cases h

theorem srcsetStep_some (img : Node) (u : String) (h : srcsetStep img = some u) :
    ∃ x, x ≠ "" ∧ u = absolute_url x := by
  rw [srcsetStep] at h
  split at h
  · cases h
  · obtain ⟨c, hc, hu⟩ := pickFromSrcset_some _ u h
    exact ⟨c.2, parseCandidates_snd_ne _ c hc, hu⟩

theorem srcStep_some (img : Node) (u : String) (h : srcStep img = some u) :
    ∃ x, x ≠ "" ∧ u = absolute_url x := by
  rw [srcStep] at h
  split at h
  · cases h
  · rename_i hne
    exact ⟨img.attrD "src", hne, (Option.some_inj.mp h).symm⟩

theorem tryImg_some (img : Node) (u : String) (h : tryImg img = some u) :
    ∃ x, x ≠ "" ∧ u = absolute_url x := by
  rw [tryImg] at h
  cases hs : srcsetStep img with
  | some v =>
      rw [hs] at h
      exact srcsetStep_some img u (hs.trans h)
  | none =>
      rw [hs] at h
      exact srcStep_some img u h

theorem bind_tryImg_some (o : Option Node) (u : String) (h : o.bind tryImg = some u) :
    ∃ x, x ≠ "" ∧ u = absolute_url x := by
  cases o with
  | none => cases h
  | some img => exact tryImg_some img u h

theorem bind_tryImg_ne_empty (o : Option Node) (u : String) (h : o.bind tryImg = some u) :
    u ≠ "" := by
  obtain ⟨x, hx, hu⟩ := bind_tryImg_some o u h
  rw [hu]
  exact absolute_url_ne_empty x hx

theorem orElse3_some (a b c : Option String) (u : String)
    (h : ((a <|> b) <|> c) = some u) : a = some u ∨ b = some u ∨ c = some u := by
  cases a <;> cases b <;> cases c <;> simp_all

theorem pick_first_image_chain (doc : Node) :
    pick_first_image doc =
      (((findHero doc).bind tryImg <|> (findFigureImg doc).bind tryImg) <|>
        (findAnyImg doc).bind tryImg).getD "" := by
  rw [pick_first_image]
  cases h1 : (findHero doc).bind tryImg with
  | some u => rfl
  | none =>
      cases h2 : (findFigureImg doc).bind tryImg with
      | some u => rfl
      | none =>
          cases h3 : (findAnyImg doc).bind tryImg with
          | some u => rfl
          | none => rfl

theorem fallback_image_eq_tier (doc : Node) :
    fallback_image doc = (tierSrcsetAnywhere doc).getD "" := by
  rw [fallback_image, tierSrcsetAnywhere]
  cases hf : findImgSrcset doc with
  | none => rfl
  | some img =>
      by_cases hs : img.attrD "srcset" = ""
      · dsimp only [Option.some_bind]
        rw [if_pos hs, if_pos hs]
        rfl
      · dsimp only [Option.some_bind]
        rw [if_neg hs, if_neg hs]

theorem select_image_cases (doc : Node) :
    select_image doc = "" ∨ ∃ x, x ≠ "" ∧ select_image doc = absolute_url x := by
  simp only [select_image]
  by_cases hp : pick_first_image doc = ""
  · rw [if_pos hp]
    rw [fallback_image_eq_tier, tierSrcsetAnywhere]
    cases hf : findImgSrcset doc with
    | none => exact Or.inl rfl
    | some img =>
        dsimp only [Option.some_bind]
        by_cases hs : img.attrD "srcset" = ""
        · rw [if_pos hs]
          exact Or.inl rfl
        · rw [if_neg hs]
          cases hb : fallbackPickFromSrcset (img.attrD "srcset") with
          | none => exact Or.inl rfl
          | some u =>
              obtain ⟨c, hc, hu⟩ := fallbackPickFromSrcset_some _ u hb
              exact Or.inr ⟨c.2, parseCandidates_snd_ne _ c hc, by rw [Option.getD_some, hu]⟩
  · rw [if_neg hp]
    have hch := pick_first_image_chain doc
    cases hc : (((findHero doc).bind tryImg <|> (findFigureImg doc).bind tryImg) <|>
        (findAnyImg doc).bind tryImg) with
    | none =>
        rw [hc, Option.getD_none] at hch
        exact absurd hch hp
    | some u =>
        rw [hc, Option.getD_some] at hch
        rcases orElse3_some _ _ _ u hc with h | h | h <;>
        · obtain ⟨x, hx, hu⟩ := bind_tryImg_some _ u h
          exact Or.inr ⟨x, hx, hch.trans hu⟩

/-! ### Calendar facts -/

theorem fdiv_eq_div_four (a : Int) : a.fdiv 4 = a / 4 :=
  Int.fdiv_eq_ediv a (by norm_num)

theorem fdiv_eq_div_hundred (a : Int) : a.fdiv 100 = a / 100 :=
  Int.fdiv_eq_ediv a (by norm_num)

theorem fdiv_eq_div_fourhundred (a : Int) : a.fdiv 400 = a / 400 :=
  Int.fdiv_eq_ediv a (by norm_num)

theorem fdiv_eq_div_seven (a : Int) : a.fdiv 7 = a / 7 :=
  Int.fdiv_eq_ediv a (by norm_num)

theorem daysBeforeYear_step (y : Int) : daysBeforeYear (y - 1) + 364 ≤ daysBeforeYear y := by
  rw [daysBeforeYear, daysBeforeYear]
  rw [fdiv_eq_div_four, fdiv_eq_div_four, fdiv_eq_div_hundred, fdiv_eq_div_hundred,
    fdiv_eq_div_fourhundred, fdiv_eq_div_fourhundred]
  omega

set_option maxHeartbeats 1000000 in
theorem daysBeforeMonth_nonneg (y m : Int) : 0 ≤ daysBeforeMonth y m := by
  rw [daysBeforeMonth]
  split_ifs <;> norm_num

theorem ymd2ord_first (y : Int) : ymd2ord y 1 1 = daysBeforeYear y + 1 := by
  rw [ymd2ord]
  norm_num [daysBeforeMonth]

theorem isoweek1monday_le (y : Int) : isoweek1monday y ≤ ymd2ord y 1 1 + 3 := by
  rw [isoweek1monday]
  have h1 : 0 ≤ (ymd2ord y 1 1 + 6) % 7 := Int.emod_nonneg _ (by norm_num)
  have h2 : (ymd2ord y 1 1 + 6) % 7 < 7 := Int.emod_lt_of_pos _ (by norm_num)
  split_ifs <;> omega

theorem ymd2ord_first_le (y m d : Int) (_hm : 1 ≤ m) (hd : 1 ≤ d) :
    ymd2ord y 1 1 ≤ ymd2ord y m d := by
  rw [ymd2ord_first, ymd2ord]
  have h1 := daysBeforeMonth_nonneg y m
  omega

theorem one_le_isoWeek (dt : PyDate) (h : ValidDate dt) : 1 ≤ isoWeek dt := by
  obtain ⟨hy1, hy2, hm1, hm2, hd1, hd2⟩ := h
  simp only [isoWeek]
  split_ifs with hneg hbig hnext
  · have hord : isoweek1monday (dt.year - 1) ≤ ymd2ord dt.year dt.month dt.day := by
      have s1 := isoweek1monday_le (dt.year - 1)
      have s2 := daysBeforeYear_step dt.year
      have s3 := ymd2ord_first_le dt.year dt.month dt.day hm1 hd1
      have s4 : ymd2ord (dt.year - 1) 1 1 + 364 ≤ ymd2ord dt.year 1 1 := by
        rw [ymd2ord_first, ymd2ord_first]
        have := daysBeforeYear_step dt.year
        omega
      omega
    have : 0 ≤ (ymd2ord dt.year dt.month dt.day - isoweek1monday (dt.year - 1)).fdiv 7 :=
      Int.fdiv_nonneg (by omega) (by norm_num)
    omega
  · omega
  · omega
  · omega

/-! ### Reduction of `scrape_week_extract` -/

theorem lookupTextFunction_fails :
    lookupTextFunction "get_text_or_empty" = .error (.nameError "get_text_or_empty") := rfl

theorem scrape_week_extract_eq (week : Int) (doc : Node) (now : String) :
    scrape_week_extract week doc now = .error (.nameError "get_text_or_empty") := rfl

theorem main_run_written_none (today : PyDate) (now : String) (net : NetResult) :
    (main_run today now net).written = none := by
  rw [main_run, scrape_week_run]
  cases hf : fetch_week net with
  | error e => rfl
  | ok doc => rfl

/-! ### Claim theorems -/

/-- C5: image selection tries the five tiers strictly in priority order,
stopping at the first tier that yields a URL: the hero candidate list,
the hero plain source, the two-step logic on the first figure image, the
two-step logic on the first image anywhere, and the first image anywhere
with a candidate-list attribute; when every tier yields nothing the image
URL is the empty string. -/
theorem select_image_priority_order (doc : Node) : select_image doc = specTiers doc := by
  have hhero : (tierHeroSrcset doc <|> tierHeroSrc doc) = (findHero doc).bind tryImg := by
    rw [tierHeroSrcset, tierHeroSrc]
    cases findHero doc with
    | none => rfl
    | some img => rfl
  rw [specTiers, hhero, tierFigure, tierAny]
  simp only [select_image]
  by_cases hp : pick_first_image doc = ""
  · rw [if_pos hp]
    have hch := pick_first_image_chain doc
    cases hc : (((findHero doc).bind tryImg <|> (findFigureImg doc).bind tryImg) <|>
        (findAnyImg doc).bind tryImg) with
    | some u =>
        rw [hc, Option.getD_some] at hch
        rcases orElse3_some _ _ _ u hc with h | h | h <;>
          exact absurd (hp.symm.trans hch).symm (bind_tryImg_ne_empty _ u h)
    | none =>
        rw [Option.none_orElse]
        exact fallback_image_eq_tier doc
  · rw [if_neg hp]
    have hch := pick_first_image_chain doc
    cases hc : (((findHero doc).bind tryImg <|> (findFigureImg doc).bind tryImg) <|>
        (findAnyImg doc).bind tryImg) with
    | none =>
        rw [hc, Option.getD_none] at hch
        exact absurd hch hp
    | some u =>
        rw [hc, Option.getD_some] at hch
        rw [Option.some_orElse, Option.getD_some]
        exact hch

/-- C4: when the hero image carries a candidate list, the primary selector
keeps the syntactically valid entries and returns the absolute URL of the
candidate with the largest integer width, ties broken in favour of the
last-parsed candidate (`chooseLast`); in particular the candidate list
`"a.jpg 400w, b.jpg 1200w, c.jpg 800w"` yields the absolute URL of
`b.jpg`, and a tie yields the later candidate. -/
theorem hero_srcset_largest_width :
    (∀ doc img c, findHero doc = some img →
        chooseLast widthR (parseCandidates (img.attrD "srcset")) = some c →
        pick_first_image doc = absolute_url c.2)
    ∧ (∀ s c, chooseLast widthR (parseCandidates s) = some c →
        ∀ a ∈ parseCandidates s, a.1 ≤ c.1)
    ∧ pick_first_image heroDoc = "https://www.churchofjesuschrist.org/b.jpg"
    ∧ pick_first_image heroTieDoc = "https://www.churchofjesuschrist.org/b.jpg" := by
  refine ⟨?_, ?_, by decide, by decide⟩
  · intro doc img c himg hc
    have hsne : img.attrD "srcset" ≠ "" := by
      intro h0
      rw [h0, parseCandidates_empty] at hc
      cases hc
    have hstep : srcsetStep img = some (absolute_url c.2) := by
      rw [srcsetStep, if_neg hsne, pickFromSrcset, getLast?_insertionSort widthR, hc]
    rw [pick_first_image_chain doc, himg, Option.some_bind, tryImg, hstep]
    rfl
  · intro s c hc a ha
    exact chooseLast_rel widthR (parseCandidates s) c hc a ha

/-- C4 witness: the theorem applied to the concrete hero document. -/
theorem hero_srcset_largest_width_witness :
    pick_first_image heroDoc = absolute_url "b.jpg"
    ∧ ∀ a ∈ parseCandidates "a.jpg 400w, b.jpg 1200w, c.jpg 800w", a.1 ≤ 1200 :=
  ⟨hero_srcset_largest_width.1 heroDoc
      (Node.elem "img" [("id", "img1"), ("srcset", "a.jpg 400w, b.jpg 1200w, c.jpg 800w")] .nil)
      (1200, "b.jpg") (by decide) (by decide),
   fun a ha => hero_srcset_largest_width.2.1 "a.jpg 400w, b.jpg 1200w, c.jpg 800w"
      (1200, "b.jpg") (by decide) a ha⟩

/-- C2: the name `get_text_or_empty` is bound nowhere at module scope, so
every run reaching heading extraction raises `NameError` before a record
is constructed, and no run ever writes an output record. -/
theorem extraction_raises_name_error :
    "get_text_or_empty" ∉ moduleScopeNames
    ∧ (∀ week doc now, scrape_week_extract week doc now
        = .error (.nameError "get_text_or_empty"))
    ∧ (∀ today now net, (main_run today now net).written = none) :=
  ⟨by decide, scrape_week_extract_eq, main_run_written_none⟩

/-- C3: for every calendar date the clamped week number lies in `[1, 52]`,
an ISO week of 53 is mapped to 52, and ISO weeks up to 52 pass through
unchanged. -/
theorem week_resolver_range (dt : PyDate) (h : ValidDate dt) :
    (1 ≤ iso_week_number dt ∧ iso_week_number dt ≤ 52)
    ∧ (isoWeek dt = 53 → iso_week_number dt = 52)
    ∧ (isoWeek dt ≤ 52 → iso_week_number dt = isoWeek dt) := by
  have h1 := one_le_isoWeek dt h
  rw [iso_week_number]
  refine ⟨⟨?_, ?_⟩, ?_, ?_⟩ <;> omega

/-- C3 witness: the theorem applied to 2026-12-31 (ISO week 53) and
2026-01-05 (ISO week 2). -/
theorem week_resolver_range_witness :
    ValidDate ⟨2026, 12, 31⟩ ∧ isoWeek ⟨2026, 12, 31⟩ = 53
    ∧ iso_week_number ⟨2026, 12, 31⟩ = 52
    ∧ ValidDate ⟨2026, 1, 5⟩ ∧ isoWeek ⟨2026, 1, 5⟩ = 2
    ∧ iso_week_number ⟨2026, 1, 5⟩ = 2 :=
  ⟨by decide, by decide,
   (week_resolver_range ⟨2026, 12, 31⟩ (by decide)).2.1 (by decide),
   by decide, by decide,
   ((week_resolver_range ⟨2026, 1, 5⟩ (by decide)).2.2 (by decide)).trans (by decide)⟩

/-- C6: whenever the selected image URL is non-empty it carries a URL
scheme, because every tier resolves its winner through `absolute_url`
against the fixed base. -/
theorem image_url_always_absolute (doc : Node) (h : select_image doc ≠ "") :
    hasScheme (select_image doc) = true := by
  rcases select_image_cases doc with hc | ⟨x, hx, he⟩
  · exact absurd hc h
  · rw [he]
    exact absolute_url_hasScheme x hx

/-- C6 witness: the theorem applied to the concrete hero document. -/
theorem image_url_always_absolute_witness :
    select_image heroDoc ≠ "" ∧ hasScheme (select_image heroDoc) = true :=
  ⟨by decide, image_url_always_absolute heroDoc (by decide)⟩

/-- C7 (code bug): on a fetched page with the label element, the title
element and all image elements absent, the specified behaviour is a record
of empty fields, but extraction instead raises `NameError` at the heading
step, so no record is constructed. -/
theorem parse_miss_raises_instead :
    findTitleNumber emptyDoc = none ∧ findH1 emptyDoc = none
    ∧ findAnyImg emptyDoc = none ∧ select_image emptyDoc = ""
    ∧ scrape_week_extract 2 emptyDoc "2026-01-05T00:00:00+00:00"
        = .error (.nameError "get_text_or_empty") :=
  ⟨by decide, by decide, by decide, by decide, rfl⟩

/-- C8: a timeout, a connection failure, or a client or server error
status makes the run abort with the propagated error, print one line to
the error stream, and write no output file. -/
theorem network_error_aborts (today : PyDate) (now : String) (net : NetResult) (e : PyError)
    (h : netError net = some e) :
    (main_run today now net).raised = some e
    ∧ (main_run today now net).written = none
    ∧ (main_run today now net).errStream ≠ [] := by
  cases net with
  | timeout =>
      have he : e = .timeoutError := (Option.some_inj.mp h).symm
      rw [he]
      exact ⟨rfl, rfl, fun hc => List.noConfusion hc⟩
  | connError =>
      have he : e = .connectionError := (Option.some_inj.mp h).symm
      rw [he]
      exact ⟨rfl, rfl, fun hc => List.noConfusion hc⟩
  | resp status body =>
      rw [netError] at h
      by_cases hs : 400 ≤ status ∧ status < 600
      · rw [if_pos hs] at h
        have he : e = .httpError status := (Option.some_inj.mp h).symm
        have hf : fetch_week (.resp status body) = .error (.httpError status) := by
          rw [fetch_week, if_pos hs]
        rw [he]
        simp [main_run, scrape_week_run, hf]
      · rw [if_neg hs] at h
        cases h

/-- C8 witness: the theorem applied to a timed-out run. -/
theorem network_error_aborts_witness :
    netError NetResult.timeout = some PyError.timeoutError
    ∧ (main_run ⟨2026, 1, 5⟩ "T" NetResult.timeout).raised = some PyError.timeoutError
    ∧ (main_run ⟨2026, 1, 5⟩ "T" NetResult.timeout).written = none
    ∧ (main_run ⟨2026, 1, 5⟩ "T" NetResult.timeout).errStream ≠ [] :=
  ⟨rfl, (network_error_aborts ⟨2026, 1, 5⟩ "T" NetResult.timeout PyError.timeoutError rfl).1,
   (network_error_aborts ⟨2026, 1, 5⟩ "T" NetResult.timeout PyError.timeoutError rfl).2.1,
   (network_error_aborts ⟨2026, 1, 5⟩ "T" NetResult.timeout PyError.timeoutError rfl).2.2⟩

/-- C9 (counterexample): two runs for the same week over the same content
differ in the generation timestamp, so the produced records are not
identical. -/
theorem rerun_not_identical :
    mkRecord "2026-01-05T10:00:00+00:00" 2 "" "" ""
      ≠ mkRecord "2026-01-05T10:05:00+00:00" 2 "" "" "" :=
  fun h => absurd (congrArg WeeklyRecord.generated_at_utc h) (by decide)

/-- C9 (amended): two runs for the same week against an unchanged page
produce records identical in every field except `generated_at_utc`, which
records the wall clock of the run. -/
theorem rerun_identical_but_timestamp (t1 t2 : String) (week : Int)
    (image small big : String) :
    (mkRecord t1 week image small big).week_number
        = (mkRecord t2 week image small big).week_number
    ∧ (mkRecord t1 week image small big).source_url
        = (mkRecord t2 week image small big).source_url
    ∧ (mkRecord t1 week image small big).image_url
        = (mkRecord t2 week image small big).image_url
    ∧ (mkRecord t1 week image small big).small_heading
        = (mkRecord t2 week image small big).small_heading
    ∧ (mkRecord t1 week image small big).big_heading
        = (mkRecord t2 week image small big).big_heading
    ∧ (mkRecord t1 week image small big).generated_at_utc = t1 :=
  ⟨rfl, rfl, rfl, rfl, rfl, rfl⟩

/-- C10: candidate-list entries the regex rejects are skipped without
error: removing a rejected entry leaves the candidate list unchanged, and
any selected candidate comes from an entry the regex accepted. -/
theorem malformed_candidates_skipped :
    (∀ (pre post : List (List Char)) (bad : List Char),
        parseCandidate (pyStrip bad) = none →
        (pre ++ bad :: post).filterMap (fun p => parseCandidate (pyStrip p))
          = (pre ++ post).filterMap (fun p => parseCandidate (pyStrip p)))
    ∧ (∀ s u, pickFromSrcset s = some u →
        ∃ c, (∃ part ∈ splitOnComma s.data, parseCandidate (pyStrip part) = some c)
          ∧ u = absolute_url c.2)
    ∧ (∀ s u, fallbackPickFromSrcset s = some u →
        ∃ c, (∃ part ∈ splitOnComma s.data, parseCandidate (pyStrip part) = some c)
          ∧ u = absolute_url c.2) := by
  refine ⟨?_, ?_, ?_⟩
  · intro pre post bad hbad
    simp [List.filterMap_append, List.filterMap_cons, hbad]
  · intro s u h
    obtain ⟨c, hc, hu⟩ := pickFromSrcset_some s u h
    rw [parseCandidates, List.mem_filterMap] at hc
    exact ⟨c, hc, hu⟩
  · intro s u h
    obtain ⟨c, hc, hu⟩ := fallbackPickFromSrcset_some s u h
    rw [parseCandidates, List.mem_filterMap] at hc
    exact ⟨c, hc, hu⟩

/-- C10 witness: the theorem applied to a list with one rejected entry. -/
theorem malformed_candidates_skipped_witness :
    ["a.jpg 400w".data, "junk".data].filterMap (fun p => parseCandidate (pyStrip p))
        = ["a.jpg 400w".data].filterMap (fun p => parseCandidate (pyStrip p))
    ∧ ∃ c, (∃ part ∈ splitOnComma ("a.jpg 400w, junk").data,
          parseCandidate (pyStrip part) = some c)
        ∧ "https://www.churchofjesuschrist.org/a.jpg" = absolute_url c.2 :=
  ⟨malformed_candidates_skipped.1 ["a.jpg 400w".data] [] "junk".data (by decide),
   malformed_candidates_skipped.2.1 "a.jpg 400w, junk"
     "https://www.churchofjesuschrist.org/a.jpg" (by decide)⟩

/-- C1 (counterexample): on a page where only the final fallback tier
fires, with candidate list `"z.jpg 800w, a.jpg 1200w"`, the code selects
the numeric-width maximum `a.jpg`, while the lexicographic string sort the
specification describes selects `z.jpg`. -/
theorem final_fallback_not_lexicographic :
    pick_first_image fbDoc = ""
    ∧ select_image fbDoc = "https://www.churchofjesuschrist.org/a.jpg"
    ∧ specLexFallbackPick "z.jpg 800w, a.jpg 1200w"
        = some "https://www.churchofjesuschrist.org/z.jpg"
    ∧ select_image fbDoc ≠ "https://www.churchofjesuschrist.org/z.jpg" := by
  exact ⟨by decide, by decide, by decide, by decide⟩

/-- C1 (amended): the final fallback tier parses widths as integers
exactly like tiers one to four and sorts the `(width, URL)` pairs, so it
selects a candidate of maximal numeric width, with ties among equal
widths broken towards the lexicographically largest URL; its selection
never has less than the maximal numeric width. -/
theorem final_fallback_numeric_max (doc : Node) (img : Node) (c : Nat × String)
    (h1 : findImgSrcset doc = some img)
    (h2 : chooseLast tupleR (parseCandidates (img.attrD "srcset")) = some c) :
    fallback_image doc = absolute_url c.2
    ∧ ∀ a ∈ parseCandidates (img.attrD "srcset"), a.1 ≤ c.1 := by
  have hsne : img.attrD "srcset" ≠ "" := by
    intro h0
    rw [h0, parseCandidates_empty] at h2
    cases h2
  constructor
  · rw [fallback_image_eq_tier, tierSrcsetAnywhere, h1, Option.some_bind, if_neg hsne,
      fallbackPickFromSrcset, getLast?_insertionSort tupleR, h2]
    rfl
  · intro a ha
    rcases chooseLast_rel tupleR (parseCandidates (img.attrD "srcset")) c h2 a ha with
      hlt | ⟨heq, _⟩
    · exact le_of_lt hlt
    · exact le_of_eq heq

/-- C1 amended witness: the theorem applied to the fallback document. -/
theorem final_fallback_numeric_max_witness :
    fallback_image fbDoc = absolute_url "a.jpg"
    ∧ ∀ a ∈ parseCandidates "z.jpg 800w, a.jpg 1200w", a.1 ≤ 1200 :=
  ⟨(final_fallback_numeric_max fbDoc
      (Node.elem "img" [("srcset", "z.jpg 800w, a.jpg 1200w")] .nil)
      (1200, "a.jpg") (by decide) (by decide)).1,
   fun a ha => (final_fallback_numeric_max fbDoc
      (Node.elem "img" [("srcset", "z.jpg 800w, a.jpg 1200w")] .nil)
      (1200, "a.jpg") (by decide) (by decide)).2 a ha⟩
